import Mathlib

/-!
Shallow embedding of `src/app.py` (a DCF intrinsic-value calculator).

Conventions of the embedding:
* Python floats are modelled as exact reals (`ℝ`); `np.exp` is `Real.exp`.
  The provider-side cash-flow extraction and the recommendation classifier
  involve no transcendental functions and are modelled over `ℚ`, so they
  stay fully executable.
* `dcf_valuation` returns `DCFOutcome`: the Python function returns `None`
  when the cash-flow data is missing or empty (`noneResult`), raises
  `IndexError` when `future_cash_flows[-1]` is taken on an empty list
  (`indexError`, reachable exactly when `years_projection = 0`), and
  otherwise returns a result record (`ok`).
-/

namespace DCFApp

/-! ### Valuation result record (the dict returned at app.py lines 135-143) -/

structure ValuationResult where
  intrinsic_value : ℝ
  enterprise_value : ℝ
  current_fcf : ℝ
  present_values : List ℝ
  terminal_pv : ℝ
  future_cash_flows : List ℝ
  terminal_value : ℝ

inductive DCFOutcome where
  | noneResult : DCFOutcome
  | indexError : DCFOutcome
  | ok : ValuationResult → DCFOutcome

def DCFOutcome.isOk : DCFOutcome → Bool
  | .ok _ => true
  | _ => false

/-! ### app.py lines 110-115: projection loop.
`year_growth = growth_rate * np.exp(-0.1 * year)`;
`future_fcf = current_fcf * (1 + year_growth) ** year`. -/

noncomputable def year_growth (growth_rate : ℝ) (year : ℕ) : ℝ :=
  growth_rate * Real.exp (-0.1 * year)

noncomputable def future_fcf (current_fcf growth_rate : ℝ) (year : ℕ) : ℝ :=
  current_fcf * (1 + year_growth growth_rate year) ^ year

noncomputable def future_cash_flows (current_fcf growth_rate : ℝ)
    (years_projection : ℕ) : List ℝ :=
  (List.range years_projection).map fun i => future_fcf current_fcf growth_rate (i + 1)

/-! ### app.py line 118: terminal value (Gordon growth, no clamping). -/

noncomputable def terminal_value_calc (last_fcf terminal_growth discount_rate : ℝ) : ℝ :=
  last_fcf * (1 + terminal_growth) / (discount_rate - terminal_growth)

/-! ### app.py lines 121-124: `pv = fcf / (1 + discount_rate) ** (i + 1)`
over `enumerate(future_cash_flows)`. -/

noncomputable def present_values_calc (fcfs : List ℝ) (discount_rate : ℝ) : List ℝ :=
  fcfs.enum.map fun p => p.2 / (1 + discount_rate) ^ (p.1 + 1)

/-! ### app.py line 127: `terminal_pv = terminal_value / (1 + discount_rate) ** years_projection` -/

noncomputable def terminal_pv_calc (terminal_value discount_rate : ℝ) (years_projection : ℕ) : ℝ :=
  terminal_value / (1 + discount_rate) ^ years_projection

/-! ### app.py lines 130-143: aggregation and result record. -/

noncomputable def enterprise_value_calc (current_fcf growth_rate terminal_growth discount_rate : ℝ)
    (years_projection : ℕ) (last_fcf : ℝ) : ℝ :=
  (present_values_calc (future_cash_flows current_fcf growth_rate years_projection)
      discount_rate).sum +
    terminal_pv_calc (terminal_value_calc last_fcf terminal_growth discount_rate)
      discount_rate years_projection

noncomputable def mk_result (current_fcf growth_rate terminal_growth discount_rate : ℝ)
    (years_projection : ℕ) (shares_outstanding last_fcf : ℝ) : ValuationResult where
  intrinsic_value :=
    enterprise_value_calc current_fcf growth_rate terminal_growth discount_rate
      years_projection last_fcf / shares_outstanding
  enterprise_value :=
    enterprise_value_calc current_fcf growth_rate terminal_growth discount_rate
      years_projection last_fcf
  current_fcf := current_fcf
  present_values :=
    present_values_calc (future_cash_flows current_fcf growth_rate years_projection) discount_rate
  terminal_pv :=
    terminal_pv_calc (terminal_value_calc last_fcf terminal_growth discount_rate)
      discount_rate years_projection
  future_cash_flows := future_cash_flows current_fcf growth_rate years_projection
  terminal_value := terminal_value_calc last_fcf terminal_growth discount_rate

/-! ### app.py lines 102-143: `dcf_valuation`.
Lines 103-104: `if fcf_data is None or len(fcf_data) == 0: return None`.
Line 107: `current_fcf = fcf_data[0]` (first element, via `.iloc[0]` or `[0]`).
Line 118 indexes `future_cash_flows[-1]`, an `IndexError` on an empty list. -/

noncomputable def dcf_valuation (fcf_data : Option (List ℝ))
    (growth_rate terminal_growth discount_rate : ℝ)
    (years_projection : ℕ) (shares_outstanding : ℝ) : DCFOutcome :=
  match fcf_data with
  | none => .noneResult
  | some [] => .noneResult
  | some (f0 :: _) =>
    match (future_cash_flows f0 growth_rate years_projection).getLast? with
    | none => .indexError
    | some last_fcf =>
      .ok (mk_result f0 growth_rate terminal_growth discount_rate
        years_projection shares_outstanding last_fcf)

/-! ### app.py lines 230-241: recommendation classifier.
`if intrinsic > price * 1.2: FUERTE COMPRA; elif intrinsic > price: COMPRA;
elif intrinsic > price * 0.8: MANTENER; else: VENDE`.
No transcendental arithmetic is involved, so this is modelled over `ℚ`. -/

inductive Recommendation where
  | strongBuy : Recommendation
  | buy : Recommendation
  | hold : Recommendation
  | sell : Recommendation
  deriving DecidableEq

def recommendation (intrinsic_value current_price : ℚ) : Recommendation :=
  if intrinsic_value > current_price * 1.2 then .strongBuy
  else if intrinsic_value > current_price then .buy
  else if intrinsic_value > current_price * 0.8 then .hold
  else .sell

/-! ### app.py lines 57-63: free-cash-flow extraction from the provider's
cash-flow statement. The pandas DataFrame is modelled as an association list
from row label to the row's numeric series:
`fcf = None; if not cash_flow.empty: if 'Free Cash Flow' in index: fcf = loc[...]
elif 'Operating Cash Flow' in index and 'Capital Expenditure' in index:
fcf = OCF - CapEx`. No market-cap fallback appears anywhere in the source. -/

abbrev FinTable := List (String × List ℚ)

def extract_fcf (cash_flow : FinTable) : Option (List ℚ) :=
  if cash_flow.isEmpty then none
  else
    match List.lookup "Free Cash Flow" cash_flow with
    | some row => some row
    | none =>
      match List.lookup "Operating Cash Flow" cash_flow,
            List.lookup "Capital Expenditure" cash_flow with
      | some ocf, some capex => some (List.zipWith (· - ·) ocf capex)
      | _, _ => none

/-- The base cash flow the valuation would consume: the first entry of the
extracted series (app.py line 107 uses `fcf_data.iloc[0]`), or nothing when
no series was resolved (the app then shows an error and never values). -/
def resolved_base_fcf (cash_flow : FinTable) : Option ℚ :=
  (extract_fcf cash_flow).bind fun l => l.head?

/-- Modelled from the spec (§4, §8 item 4): the clamp
`terminal_growth_rate := max(0, discount_rate - 0.01)` applied whenever
`terminal_growth_rate >= discount_rate`. This definition follows the spec's
words; no counterpart exists in `src/app.py`, and it is used only to compare
the spec's claimed behavior with the code's. -/
noncomputable def spec_clamped_terminal_growth (discount_rate terminal_growth : ℝ) : ℝ :=
  if terminal_growth ≥ discount_rate then max 0 (discount_rate - 0.01) else terminal_growth

/-- Projection of the terminal value out of a `dcf_valuation` outcome, used to
state claims about the terminal value actually computed. -/
noncomputable def dcf_terminal_value (fcf_data : Option (List ℝ))
    (growth_rate terminal_growth discount_rate : ℝ)
    (years_projection : ℕ) (shares_outstanding : ℝ) : Option ℝ :=
  match dcf_valuation fcf_data growth_rate terminal_growth discount_rate
      years_projection shares_outstanding with
  | .ok r => some r.terminal_value
  | _ => none

/-! ### Basic structural lemmas -/

theorem future_cash_flows_length (c g : ℝ) (y : ℕ) :
    (future_cash_flows c g y).length = y := by
  simp [future_cash_flows]

theorem future_cash_flows_getLast?_succ (c g : ℝ) (m : ℕ) :
    (future_cash_flows c g (m + 1)).getLast? = some (future_fcf c g (m + 1)) := by
  simp [future_cash_flows, List.range_succ]

theorem dcf_valuation_eq_ok (f0 : ℝ) (rest : List ℝ) (g tg dr s : ℝ) (m : ℕ) :
    dcf_valuation (some (f0 :: rest)) g tg dr (m + 1) s =
      .ok (mk_result f0 g tg dr (m + 1) s (future_fcf f0 g (m + 1))) := by
  simp [dcf_valuation, future_cash_flows_getLast?_succ]

theorem dcf_valuation_ok_inv (f0 : ℝ) (rest : List ℝ) (g tg dr s : ℝ) (y : ℕ)
    (r : ValuationResult) (h : dcf_valuation (some (f0 :: rest)) g tg dr y s = .ok r) :
    r = mk_result f0 g tg dr y s (future_fcf f0 g y) ∧ 1 ≤ y := by
  cases y with
  | zero =>
    simp [dcf_valuation, future_cash_flows] at h
  | succ m =>
    rw [dcf_valuation_eq_ok] at h
    exact ⟨(DCFOutcome.ok.injEq _ _ ▸ h.symm : _), Nat.succ_le_succ (Nat.zero_le m)⟩

/-! ## Claim C10 -/

/-- C10: when the cash-flow data argument is absent (`None`) or an empty
sequence, `dcf_valuation` returns the distinguished empty result (`None`)
without raising; for a non-empty sequence it proceeds using only the first
element as the base cash flow, ignoring all later elements. -/
theorem C10_none_or_empty_and_head_only (g tg dr s : ℝ) (y : ℕ) (x : ℝ) (xs ys : List ℝ) :
    dcf_valuation none g tg dr y s = .noneResult ∧
    dcf_valuation (some []) g tg dr y s = .noneResult ∧
    dcf_valuation (some (x :: xs)) g tg dr y s = dcf_valuation (some (x :: ys)) g tg dr y s :=
  ⟨rfl, rfl, rfl⟩

/-! ## Claim C8 -/

/-- C8 counterexample: with `projection_years = 0` (and an otherwise valid
input) the code neither rejects the input as invalid nor returns a degenerate
result: line 118 takes `future_cash_flows[-1]` on an empty list, an
`IndexError`, so no result is produced at all. -/
theorem C8_counterexample :
    dcf_valuation (some [100]) 0.05 0.025 0.1 0 1 = .indexError ∧
      (dcf_valuation (some [100]) 0.05 0.025 0.1 0 1).isOk = false :=
  ⟨rfl, rfl⟩

/-- C8 amended: for every otherwise-valid input with `projection_years = 0`
the valuation fails with an `IndexError` (from indexing `future_cash_flows[-1]`
on the empty projection list); it is not rejected as `InvalidInput` and no
(even degenerate) valuation result is returned. -/
theorem C8_amended_index_error (f0 : ℝ) (rest : List ℝ) (g tg dr s : ℝ) :
    dcf_valuation (some (f0 :: rest)) g tg dr 0 s = .indexError :=
  rfl

/-! ## Claim C7 -/

/-- C7 counterexample: for the input `fcf_data = [-100]` (non-positive base
cash flow) the valuation does not fail with any `InvalidInput` error: it
returns a fully computed result. -/
theorem C7_counterexample :
    (dcf_valuation (some [-100]) 0.05 0.025 0.1 1 1).isOk = true := by
  rw [show (1 : ℕ) = 0 + 1 from rfl, dcf_valuation_eq_ok]
  rfl

/-- C7 amended: the code performs no input validation at all: for every input
with a non-empty cash-flow series and `projection_years ≥ 1` — in particular
for every `base_fcf ≤ 0` or `shares_outstanding ≤ 0` — `dcf_valuation`
returns a computed result instead of failing with `InvalidInput`. -/
theorem C7_amended_no_validation (f0 : ℝ) (rest : List ℝ) (g tg dr s : ℝ) (m : ℕ)
    (_h : f0 ≤ 0 ∨ s ≤ 0) :
    (dcf_valuation (some (f0 :: rest)) g tg dr (m + 1) s).isOk = true := by
  rw [dcf_valuation_eq_ok]
  rfl

/-- Witness for `C7_amended_no_validation` at `base_fcf = -100`,
`shares_outstanding = 1`. -/
theorem C7_amended_no_validation_witness :
    ((-100 : ℝ) ≤ 0 ∨ (1 : ℝ) ≤ 0) ∧
      (dcf_valuation (some [-100]) 0.05 0.025 0.1 (0 + 1) 1).isOk = true :=
  ⟨Or.inl (by norm_num),
    C7_amended_no_validation (-100) [] 0.05 0.025 0.1 1 0 (Or.inl (by norm_num))⟩

/-! ## Claim C1 -/

/-- C1 counterexample: at `terminal_growth = discount_rate = 0.1` the code does
not clamp the terminal growth rate: the terminal value it computes is the raw
formula with denominator `0.1 - 0.1` (which is not strictly positive), and it
differs from the value the spec's clamp `max(0, discount_rate - 0.01)` would
produce. -/
theorem C1_counterexample :
    dcf_terminal_value (some [100]) 0 0.1 0.1 1 1 =
      some (future_fcf 100 0 1 * (1 + 0.1) / (0.1 - 0.1)) ∧
    dcf_terminal_value (some [100]) 0 0.1 0.1 1 1 ≠
      some (future_fcf 100 0 1 * (1 + spec_clamped_terminal_growth 0.1 0.1) /
        (0.1 - spec_clamped_terminal_growth 0.1 0.1)) ∧
    ¬ (0 < (0.1 : ℝ) - 0.1) := by
  have hfcf : future_fcf 100 0 1 = 100 := by
    simp [future_fcf, year_growth]
  have hclamp : spec_clamped_terminal_growth 0.1 0.1 = 0.09 := by
    rw [spec_clamped_terminal_growth, if_pos le_rfl]
    norm_num
  have hval : dcf_terminal_value (some [100]) 0 0.1 0.1 1 1 =
      some (future_fcf 100 0 1 * (1 + 0.1) / (0.1 - 0.1)) := by
    rw [dcf_terminal_value, show (1 : ℕ) = 0 + 1 from rfl, dcf_valuation_eq_ok]
    rfl
  refine ⟨hval, ?_, by norm_num⟩
  rw [hval, hclamp, hfcf]
  intro hEq
  rw [Option.some_inj] at hEq
  norm_num at hEq

/-- C1 amended: no clamp is performed. For every input that produces a result,
the terminal value is computed as
`last_fcf * (1 + terminal_growth) / (discount_rate - terminal_growth)` with
the raw `terminal_growth`; consequently whenever
`terminal_growth ≥ discount_rate` the terminal-value denominator
`discount_rate - terminal_growth` is zero or negative (a division by zero at
equality), not strictly positive. -/
theorem C1_amended_no_clamp (f0 : ℝ) (rest : List ℝ) (g tg dr s : ℝ) (y : ℕ)
    (r : ValuationResult)
    (h : dcf_valuation (some (f0 :: rest)) g tg dr y s = .ok r) (hc : dr ≤ tg) :
    r.terminal_value = future_fcf f0 g y * (1 + tg) / (dr - tg) ∧ dr - tg ≤ 0 := by
  obtain ⟨rfl, -⟩ := dcf_valuation_ok_inv f0 rest g tg dr s y r h
  exact ⟨rfl, by linarith⟩

/-- Witness for `C1_amended_no_clamp` at `terminal_growth = discount_rate = 0.1`. -/
theorem C1_amended_no_clamp_witness :
    (0.1 : ℝ) ≤ 0.1 ∧
      ((mk_result 100 0 0.1 0.1 (0 + 1) 1 (future_fcf 100 0 (0 + 1))).terminal_value =
          future_fcf 100 0 (0 + 1) * (1 + 0.1) / (0.1 - 0.1) ∧ (0.1 : ℝ) - 0.1 ≤ 0) :=
  ⟨le_rfl,
    C1_amended_no_clamp 100 [] 0 0.1 0.1 1 (0 + 1) _
      (dcf_valuation_eq_ok 100 [] 0 0.1 0.1 1 0) le_rfl⟩

/-! ## Claim C3 -/

/-- C3 counterexample: at intrinsic value `0.8` and current price `1` the
ratio is exactly `0.8`, yet the code classifies `Sell` (line 236 compares with
strict `>`), whereas the claim requires `Hold` for `0.8 ≤ ratio ≤ 1.0` and
`Sell` only for `ratio < 0.8`. -/
theorem C3_counterexample :
    recommendation 0.8 1 = .sell ∧
      ((0.8 : ℚ) ≤ 0.8 / 1 ∧ (0.8 : ℚ) / 1 ≤ 1) ∧ ¬ ((0.8 : ℚ) / 1 < 0.8) := by
  refine ⟨?_, by norm_num, by norm_num⟩
  unfold recommendation
  rw [if_neg (by norm_num), if_neg (by norm_num), if_neg (by norm_num)]

/-- C3 amended: for `current_price > 0` and `ratio = intrinsic / price` the
classifier returns `StrongBuy` iff `ratio > 1.2`, `Buy` iff
`1.0 < ratio ≤ 1.2`, `Hold` iff `0.8 < ratio ≤ 1.0` (the lower boundary is
strict), and `Sell` iff `ratio ≤ 0.8`: a ratio of exactly `1.2` is `Buy`, but
a ratio of exactly `0.8` is `Sell`, not `Hold`. -/
theorem C3_amended_classification (iv p : ℚ) (hp : 0 < p) :
    (recommendation iv p = .strongBuy ↔ 1.2 < iv / p) ∧
    (recommendation iv p = .buy ↔ 1 < iv / p ∧ iv / p ≤ 1.2) ∧
    (recommendation iv p = .hold ↔ 0.8 < iv / p ∧ iv / p ≤ 1) ∧
    (recommendation iv p = .sell ↔ iv / p ≤ 0.8) := by
  obtain ⟨r, rfl⟩ : ∃ r, iv = r * p := ⟨iv / p, (div_mul_cancel₀ iv hp.ne').symm⟩
  rw [mul_div_cancel_right₀ r hp.ne']
  have e1 : (p * 1.2 < r * p) ↔ (1.2 < r) := by
    rw [mul_comm p]; exact mul_lt_mul_right hp
  have e2 : (p < r * p) ↔ (1 < r) := by
    nth_rewrite 1 [← one_mul p]; exact mul_lt_mul_right hp
  have e3 : (p * 0.8 < r * p) ↔ (0.8 < r) := by
    rw [mul_comm p]; exact mul_lt_mul_right hp
  unfold recommendation
  split_ifs with h1 h2 h3
  · have hr := e1.mp h1
    exact ⟨iff_of_true rfl hr,
      iff_of_false (by decide) (by rintro ⟨-, h⟩; linarith),
      iff_of_false (by decide) (by rintro ⟨-, h⟩; linarith),
      iff_of_false (by decide) (by intro h; linarith)⟩
  · have hr2 := e2.mp h2
    have hr1 : r ≤ 1.2 := not_lt.mp fun hh => h1 (e1.mpr hh)
    exact ⟨iff_of_false (by decide) (by intro h; linarith),
      iff_of_true rfl ⟨hr2, hr1⟩,
      iff_of_false (by decide) (by rintro ⟨-, h⟩; linarith),
      iff_of_false (by decide) (by intro h; linarith)⟩
  · have hr3 := e3.mp h3
    have hr2 : r ≤ 1 := not_lt.mp fun hh => h2 (e2.mpr hh)
    exact ⟨iff_of_false (by decide) (by intro h; linarith),
      iff_of_false (by decide) (by rintro ⟨h, -⟩; linarith),
      iff_of_true rfl ⟨hr3, hr2⟩,
      iff_of_false (by decide) (by intro h; linarith)⟩
  · have hr3 : r ≤ 0.8 := not_lt.mp fun hh => h3 (e3.mpr hh)
    exact ⟨iff_of_false (by decide) (by intro h; linarith),
      iff_of_false (by decide) (by rintro ⟨h, -⟩; linarith),
      iff_of_false (by decide) (by rintro ⟨h, -⟩; linarith),
      iff_of_true rfl hr3⟩

/-- Witness for `C3_amended_classification` at the `1.2` boundary: intrinsic
value `1.2`, price `1` — classified `Buy`, not `StrongBuy`. -/
theorem C3_amended_classification_witness :
    (0 : ℚ) < 1 ∧
      ((recommendation 1.2 1 = .strongBuy ↔ 1.2 < (1.2 : ℚ) / 1) ∧
       (recommendation 1.2 1 = .buy ↔ 1 < (1.2 : ℚ) / 1 ∧ (1.2 : ℚ) / 1 ≤ 1.2) ∧
       (recommendation 1.2 1 = .hold ↔ 0.8 < (1.2 : ℚ) / 1 ∧ (1.2 : ℚ) / 1 ≤ 1) ∧
       (recommendation 1.2 1 = .sell ↔ (1.2 : ℚ) / 1 ≤ 0.8)) :=
  ⟨by norm_num, C3_amended_classification 1.2 1 (by norm_num)⟩

/-! ## Claim C9 -/

/-- C9 counterexample: for a provider cash-flow table in which no
free-cash-flow line item can be located (here a table with only a
`Total Revenue` row), the resolved base cash flow is `none` — not the 5% of
market capitalization (`50 * 2,000,000 * 0.05 = 5,000,000`) the claim
requires. No such fallback exists in the code. -/
theorem C9_counterexample :
    resolved_base_fcf [("Total Revenue", [1000])] = none ∧
      resolved_base_fcf [("Total Revenue", [1000])] ≠ some (50 * 2000000 * 0.05) := by
  refine ⟨by decide, by decide⟩

/-- C9 amended: whenever the cash-flow table has no `Free Cash Flow` row and
is missing at least one of the `Operating Cash Flow` / `Capital Expenditure`
rows, the extraction resolves no cash-flow series at all (`none`): there is no
fallback to 5% of market capitalization, and the app reports an error instead
of valuing. -/
theorem C9_amended_no_fallback (t : FinTable)
    (h1 : List.lookup "Free Cash Flow" t = none)
    (h2 : List.lookup "Operating Cash Flow" t = none ∨
          List.lookup "Capital Expenditure" t = none) :
    extract_fcf t = none ∧ resolved_base_fcf t = none := by
  have he : extract_fcf t = none := by
    unfold extract_fcf
    split_ifs with hemp
    · rfl
    · rw [h1]
      rcases h2 with h2 | h2
      · rw [h2]
      · rw [h2]
        cases List.lookup "Operating Cash Flow" t <;> rfl
  exact ⟨he, by rw [resolved_base_fcf, he]; rfl⟩

/-- Witness for `C9_amended_no_fallback` on a table holding only a
`Net Income` row. -/
theorem C9_amended_no_fallback_witness :
    (List.lookup "Free Cash Flow" ([("Net Income", [7])] : FinTable) = none ∧
     List.lookup "Operating Cash Flow" ([("Net Income", [7])] : FinTable) = none) ∧
      (extract_fcf [("Net Income", [7])] = none ∧
       resolved_base_fcf [("Net Income", [7])] = none) :=
  ⟨⟨by decide, by decide⟩,
    C9_amended_no_fallback [("Net Income", [7])] (by decide) (Or.inl (by decide))⟩

/-! ## Claim C2 -/

/-- C2 counterexample: at the valid input `base_fcf = 1`, `growth_rate = 0.05`,
`terminal_growth = 0.025`, `discount_rate = 0.1`, one projection year, the
first projected cash flow is `1 * (1 + 0.05 * e^(-0.1))^1`, which is strictly
below the claimed `base_fcf * (1 + growth_rate)^1 = 1.05`: the code decays the
growth rate, it does not apply constant growth. -/
theorem C2_counterexample :
    dcf_valuation (some [1]) 0.05 0.025 0.1 1 1 =
      .ok (mk_result 1 0.05 0.025 0.1 1 1 (future_fcf 1 0.05 1)) ∧
    (mk_result 1 0.05 0.025 0.1 1 1 (future_fcf 1 0.05 1)).future_cash_flows.get? 0 ≠
      some (1 * (1 + 0.05) ^ 1 : ℝ) := by
  constructor
  · rw [show (1 : ℕ) = 0 + 1 from rfl, dcf_valuation_eq_ok]
  · have hlt : Real.exp (-(0.1 : ℝ)) < 1 := by
      rw [Real.exp_lt_one_iff]; norm_num
    show (future_cash_flows 1 0.05 1).get? 0 ≠ _
    rw [future_cash_flows, List.get?_map, List.get?_range (by norm_num : 0 < 1),
      Option.map_some']
    intro hEq
    rw [Option.some_inj, future_fcf, year_growth] at hEq
    norm_num at hEq
    nlinarith [hlt]

/-- C2 amended: for every input that produces a result and every year `t` in
`1..projection_years`, the projected cash-flow sequence satisfies
`projected_cash_flows[t-1] = base_fcf * (1 + growth_rate * e^(-0.1*t))^t` —
the geometrically decaying-growth variant named in the spec, not the
constant-growth policy. -/
theorem C2_amended_decayed_growth (f0 : ℝ) (rest : List ℝ) (g tg dr s : ℝ) (y t : ℕ)
    (r : ValuationResult)
    (h : dcf_valuation (some (f0 :: rest)) g tg dr y s = .ok r)
    (h1 : 1 ≤ t) (h2 : t ≤ y) :
    r.future_cash_flows.get? (t - 1) =
      some (f0 * (1 + g * Real.exp (-0.1 * (t : ℝ))) ^ t) := by
  obtain ⟨rfl, -⟩ := dcf_valuation_ok_inv f0 rest g tg dr s y r h
  show (future_cash_flows f0 g y).get? (t - 1) = _
  rw [future_cash_flows, List.get?_map, List.get?_range (show t - 1 < y by omega),
    Option.map_some', show t - 1 + 1 = t from by omega]
  rfl

/-- Witness for `C2_amended_decayed_growth` at one projection year, `t = 1`. -/
theorem C2_amended_decayed_growth_witness :
    ((1 : ℕ) ≤ 1 ∧ (1 : ℕ) ≤ 0 + 1) ∧
      (mk_result 1 0.05 0.025 0.1 (0 + 1) 1
            (future_fcf 1 0.05 (0 + 1))).future_cash_flows.get? (1 - 1) =
        some (1 * (1 + 0.05 * Real.exp (-0.1 * ((1 : ℕ) : ℝ))) ^ (1 : ℕ)) :=
  ⟨⟨le_rfl, le_rfl⟩,
    C2_amended_decayed_growth 1 [] 0.05 0.025 0.1 1 (0 + 1) 1 _
      (dcf_valuation_eq_ok 1 [] 0.05 0.025 0.1 1 0) le_rfl le_rfl⟩

/-! ## Claim C4 -/

/-- C4: for every input that produces a result, the enterprise value equals
the sum of the present values plus the present value of the terminal value
(exactly, over exact arithmetic), and both the projected cash-flow sequence
and the present-value sequence have length `projection_years`. -/
theorem C4_invariants (f0 : ℝ) (rest : List ℝ) (g tg dr s : ℝ) (y : ℕ)
    (r : ValuationResult)
    (h : dcf_valuation (some (f0 :: rest)) g tg dr y s = .ok r) :
    r.enterprise_value = r.present_values.sum + r.terminal_pv ∧
      r.future_cash_flows.length = y ∧ r.present_values.length = y := by
  obtain ⟨rfl, -⟩ := dcf_valuation_ok_inv f0 rest g tg dr s y r h
  refine ⟨rfl, future_cash_flows_length f0 g y, ?_⟩
  show (present_values_calc (future_cash_flows f0 g y) dr).length = y
  rw [present_values_calc, List.length_map, List.enum_length, future_cash_flows_length]

/-- Witness for `C4_invariants` at the spec's end-to-end parameters with one
projection year. -/
theorem C4_invariants_witness :
    (mk_result 100000000 0.05 0.025 0.1 (0 + 1) 10000000
          (future_fcf 100000000 0.05 (0 + 1))).enterprise_value =
        (mk_result 100000000 0.05 0.025 0.1 (0 + 1) 10000000
          (future_fcf 100000000 0.05 (0 + 1))).present_values.sum +
        (mk_result 100000000 0.05 0.025 0.1 (0 + 1) 10000000
          (future_fcf 100000000 0.05 (0 + 1))).terminal_pv ∧
      (mk_result 100000000 0.05 0.025 0.1 (0 + 1) 10000000
          (future_fcf 100000000 0.05 (0 + 1))).future_cash_flows.length = 0 + 1 ∧
      (mk_result 100000000 0.05 0.025 0.1 (0 + 1) 10000000
          (future_fcf 100000000 0.05 (0 + 1))).present_values.length = 0 + 1 :=
  C4_invariants 100000000 [] 0.05 0.025 0.1 10000000 (0 + 1) _
    (dcf_valuation_eq_ok 100000000 [] 0.05 0.025 0.1 10000000 0)

/-! ## Supporting lemmas for the monotonicity claims -/

theorem one_add_year_growth_pos (g : ℝ) (t : ℕ) (hg : 0 ≤ g) :
    0 < 1 + year_growth g t := by
  rw [year_growth]
  have he := (Real.exp_pos (-0.1 * (t : ℝ))).le
  nlinarith

theorem future_fcf_nonneg (f0 g : ℝ) (t : ℕ) (hf : 0 ≤ f0) (hg : 0 ≤ g) :
    0 ≤ future_fcf f0 g t :=
  mul_nonneg hf (pow_nonneg (one_add_year_growth_pos g t hg).le t)

theorem future_fcf_mono_growth (f0 g1 g2 : ℝ) (t : ℕ) (hf : 0 ≤ f0) (hg1 : 0 ≤ g1)
    (hg : g1 ≤ g2) : future_fcf f0 g1 t ≤ future_fcf f0 g2 t := by
  rw [future_fcf, future_fcf]
  refine mul_le_mul_of_nonneg_left
    (pow_le_pow_left (one_add_year_growth_pos g1 t hg1).le ?_ t) hf
  rw [year_growth, year_growth]
  have he := (Real.exp_pos (-0.1 * (t : ℝ))).le
  nlinarith

theorem present_values_calc_eq (f0 g dr : ℝ) (y : ℕ) :
    present_values_calc (future_cash_flows f0 g y) dr =
      (List.range y).map fun i => future_fcf f0 g (i + 1) / (1 + dr) ^ (i + 1) := by
  apply List.ext_get?
  intro n
  by_cases hn : n < y
  · simp [present_values_calc, future_cash_flows, List.get?_map, List.get?_enum,
      List.getElem?_range hn]
  · have h1 : (List.range y)[n]? = none := by
      rw [List.getElem?_eq_none_iff]
      simpa using Nat.le_of_not_lt hn
    simp [present_values_calc, future_cash_flows, List.get?_map, List.get?_enum, h1]

theorem present_values_sum_mono_discount (f0 g dr1 dr2 : ℝ) (y : ℕ)
    (hf : 0 ≤ f0) (hg : 0 ≤ g) (h1 : 0 < dr1) (h12 : dr1 ≤ dr2) :
    (present_values_calc (future_cash_flows f0 g y) dr2).sum ≤
      (present_values_calc (future_cash_flows f0 g y) dr1).sum := by
  rw [present_values_calc_eq, present_values_calc_eq]
  apply List.sum_le_sum
  intro i _
  have hpos : (0 : ℝ) < (1 + dr1) ^ (i + 1) := pow_pos (by linarith) _
  have hle : (1 + dr1) ^ (i + 1) ≤ (1 + dr2) ^ (i + 1) :=
    pow_le_pow_left (by linarith) (by linarith) _
  exact div_le_div_of_nonneg_left (future_fcf_nonneg f0 g (i + 1) hf hg) hpos hle

theorem present_values_sum_mono_growth (f0 g1 g2 dr : ℝ) (y : ℕ)
    (hf : 0 ≤ f0) (hg1 : 0 ≤ g1) (hg : g1 ≤ g2) (hdr : 0 < dr) :
    (present_values_calc (future_cash_flows f0 g1 y) dr).sum ≤
      (present_values_calc (future_cash_flows f0 g2 y) dr).sum := by
  rw [present_values_calc_eq, present_values_calc_eq]
  apply List.sum_le_sum
  intro i _
  have hpos : (0 : ℝ) < (1 + dr) ^ (i + 1) := pow_pos (by linarith) _
  exact (div_le_div_right hpos).mpr (future_fcf_mono_growth f0 g1 g2 (i + 1) hf hg1 hg)

/-! ## Claim C5 -/

/-- C5: over the app's valid parameter domain (positive base cash flow,
nonnegative growth and terminal growth, terminal growth below both discount
rates, positive share count), increasing the discount rate never increases the
intrinsic value per share. -/
theorem C5_mono_discount_rate (f0 : ℝ) (rest : List ℝ) (g tg dr1 dr2 s : ℝ) (y : ℕ)
    (r1 r2 : ValuationResult)
    (hf : 0 < f0) (hg : 0 ≤ g) (htg : 0 ≤ tg) (hd1 : tg < dr1) (hd : dr1 ≤ dr2) (hs : 0 < s)
    (h1 : dcf_valuation (some (f0 :: rest)) g tg dr1 y s = .ok r1)
    (h2 : dcf_valuation (some (f0 :: rest)) g tg dr2 y s = .ok r2) :
    r2.intrinsic_value ≤ r1.intrinsic_value := by
  obtain ⟨rfl, -⟩ := dcf_valuation_ok_inv f0 rest g tg dr1 s y r1 h1
  obtain ⟨rfl, -⟩ := dcf_valuation_ok_inv f0 rest g tg dr2 s y r2 h2
  show enterprise_value_calc f0 g tg dr2 y (future_fcf f0 g y) / s ≤
    enterprise_value_calc f0 g tg dr1 y (future_fcf f0 g y) / s
  apply (div_le_div_right hs).mpr
  rw [enterprise_value_calc, enterprise_value_calc]
  have hdr1 : (0 : ℝ) < dr1 := lt_of_le_of_lt htg hd1
  apply add_le_add
  · exact present_values_sum_mono_discount f0 g dr1 dr2 y hf.le hg hdr1 hd
  · rw [terminal_pv_calc, terminal_pv_calc, terminal_value_calc, terminal_value_calc,
      div_div, div_div]
    have hL : 0 ≤ future_fcf f0 g y * (1 + tg) :=
      mul_nonneg (future_fcf_nonneg f0 g y hf.le hg) (by linarith)
    have hden1 : (0 : ℝ) < (dr1 - tg) * (1 + dr1) ^ y :=
      mul_pos (by linarith) (pow_pos (by linarith) y)
    have hdenle : (dr1 - tg) * (1 + dr1) ^ y ≤ (dr2 - tg) * (1 + dr2) ^ y :=
      mul_le_mul (by linarith) (pow_le_pow_left (by linarith) (by linarith) y)
        (pow_pos (by linarith) y).le (by linarith)
    exact div_le_div_of_nonneg_left hL hden1 hdenle

/-- Witness for `C5_mono_discount_rate` at discount rates `0.1 ≤ 0.12`. -/
theorem C5_mono_discount_rate_witness :
    ((0 : ℝ) < 100 ∧ (0 : ℝ) ≤ 0.05 ∧ (0 : ℝ) ≤ 0.025 ∧ (0.025 : ℝ) < 0.1 ∧
      (0.1 : ℝ) ≤ 0.12 ∧ (0 : ℝ) < 1) ∧
      (mk_result 100 0.05 0.025 0.12 (0 + 1) 1
          (future_fcf 100 0.05 (0 + 1))).intrinsic_value ≤
        (mk_result 100 0.05 0.025 0.1 (0 + 1) 1
          (future_fcf 100 0.05 (0 + 1))).intrinsic_value :=
  ⟨⟨by norm_num, by norm_num, by norm_num, by norm_num, by norm_num, by norm_num⟩,
    C5_mono_discount_rate 100 [] 0.05 0.025 0.1 0.12 1 (0 + 1) _ _
      (by norm_num) (by norm_num) (by norm_num) (by norm_num) (by norm_num) (by norm_num)
      (dcf_valuation_eq_ok 100 [] 0.05 0.025 0.1 1 0)
      (dcf_valuation_eq_ok 100 [] 0.05 0.025 0.12 1 0)⟩

/-! ## Claim C6 -/

/-- C6: over the app's valid parameter domain, increasing the growth rate
never decreases the intrinsic value per share. -/
theorem C6_mono_growth_rate (f0 : ℝ) (rest : List ℝ) (g1 g2 tg dr s : ℝ) (y : ℕ)
    (r1 r2 : ValuationResult)
    (hf : 0 < f0) (hg1 : 0 ≤ g1) (hg : g1 ≤ g2) (htg : 0 ≤ tg) (hd : tg < dr) (hs : 0 < s)
    (h1 : dcf_valuation (some (f0 :: rest)) g1 tg dr y s = .ok r1)
    (h2 : dcf_valuation (some (f0 :: rest)) g2 tg dr y s = .ok r2) :
    r1.intrinsic_value ≤ r2.intrinsic_value := by
  obtain ⟨rfl, -⟩ := dcf_valuation_ok_inv f0 rest g1 tg dr s y r1 h1
  obtain ⟨rfl, -⟩ := dcf_valuation_ok_inv f0 rest g2 tg dr s y r2 h2
  show enterprise_value_calc f0 g1 tg dr y (future_fcf f0 g1 y) / s ≤
    enterprise_value_calc f0 g2 tg dr y (future_fcf f0 g2 y) / s
  apply (div_le_div_right hs).mpr
  rw [enterprise_value_calc, enterprise_value_calc]
  have hdr : (0 : ℝ) < dr := lt_of_le_of_lt htg hd
  apply add_le_add
  · exact present_values_sum_mono_growth f0 g1 g2 dr y hf.le hg1 hg hdr
  · rw [terminal_pv_calc, terminal_pv_calc, terminal_value_calc, terminal_value_calc]
    have hfm := future_fcf_mono_growth f0 g1 g2 y hf.le hg1 hg
    have hpow : (0 : ℝ) < (1 + dr) ^ y := pow_pos (by linarith) y
    apply (div_le_div_right hpow).mpr
    apply (div_le_div_right (show (0 : ℝ) < dr - tg by linarith)).mpr
    exact mul_le_mul_of_nonneg_right hfm (by linarith)

/-- Witness for `C6_mono_growth_rate` at growth rates `0.05 ≤ 0.08`. -/
theorem C6_mono_growth_rate_witness :
    ((0 : ℝ) < 100 ∧ (0 : ℝ) ≤ 0.05 ∧ (0.05 : ℝ) ≤ 0.08 ∧ (0 : ℝ) ≤ 0.025 ∧
      (0.025 : ℝ) < 0.1 ∧ (0 : ℝ) < 1) ∧
      (mk_result 100 0.05 0.025 0.1 (0 + 1) 1
          (future_fcf 100 0.05 (0 + 1))).intrinsic_value ≤
        (mk_result 100 0.08 0.025 0.1 (0 + 1) 1
          (future_fcf 100 0.08 (0 + 1))).intrinsic_value :=
  ⟨⟨by norm_num, by norm_num, by norm_num, by norm_num, by norm_num, by norm_num⟩,
    C6_mono_growth_rate 100 [] 0.05 0.08 0.025 0.1 1 (0 + 1) _ _
      (by norm_num) (by norm_num) (by norm_num) (by norm_num) (by norm_num) (by norm_num)
      (dcf_valuation_eq_ok 100 [] 0.05 0.025 0.1 1 0)
      (dcf_valuation_eq_ok 100 [] 0.08 0.025 0.1 1 0)⟩

end DCFApp
